import Mathlib

/-!
Verification of the incremental Shopify sync engine
(`scripts/shopify_api.py`, `scripts/sync.py`, `scripts/database.py`,
`scripts/main.py`) against its design specification.

The embedding is shallow and executable:

* Python strings are Lean `String`s; the string helpers used by
  `parse_link_header` (`str.split`, `str.strip`, `str.find`, slicing) are
  re-implemented over `List Char` with Python's exact semantics (including
  `find`'s `-1` result and negative-index slicing).
* Timestamps are modelled as `Int` epoch seconds.  `datetime.fromisoformat` /
  `isoformat` round-trip a timezone-aware UTC timestamp exactly, and
  `isoformat_for_api`'s `astimezone(utc)` is the identity on the represented
  instant, so both are the identity in this model; `timedelta` arithmetic is
  plain integer arithmetic.  A record whose `updated_at` is missing or
  unparsable is modelled with `updated_at = none` (neither contributes to the
  watermark maximum).
* The SQLite tables (all with `id INTEGER PRIMARY KEY`) are modelled as
  functions `Nat → Option Row`; `INSERT OR REPLACE` with an explicit key is a
  pointwise update.  `INSERT OR REPLACE` with a NULL primary key (possible
  only for line items, whose id is read with `li.get("id")`) auto-assigns a
  fresh rowid; SQLite assigns `max(rowid)+1`, modelled here by the monotone
  counter `liNext` (the two agree as long as explicitly inserted ids stay
  below the counter, in particular on the concrete stores used below).
* A Python exception escaping a function is an `Option`/`Except` error value.
  A sync pass that raises before `conn.commit()` leaves the durable database
  unchanged (the implicit transaction is never committed).
* The network is an input: `fetch_all_rest` consumes the list of page
  responses the server would hand back, and `request_with_retries` consumes a
  function from attempt index to that attempt's outcome.
-/

/-! ## Python string primitives (exact semantics of the subset used) -/

/-- The `"` character, written via its code point. -/
def quoteChar : Char := Char.ofNat 34

/-- `str.split(sep)` for a one-character separator: splits on every
occurrence, keeping empty fragments (so `"".split(",") = [""]`). -/
def pySplitAux (sep : Char) : List Char → List Char → List (List Char)
| [], acc => [acc.reverse]
| c :: cs, acc => if c = sep then acc.reverse :: pySplitAux sep cs [] else pySplitAux sep cs (c :: acc)

/-- `s.split(sep)` for a one-character separator. -/
def pySplit (sep : Char) (cs : List Char) : List (List Char) := pySplitAux sep cs []

/-- Strip characters satisfying `p` from both ends. -/
def stripWhile (p : Char → Bool) (cs : List Char) : List Char :=
  ((cs.dropWhile p).reverse.dropWhile p).reverse

/-- `s.strip()` (whitespace from both ends). -/
def pyStrip (cs : List Char) : List Char := stripWhile Char.isWhitespace cs

/-- `s.strip(c)` for a single strip character. -/
def pyStripChar (c : Char) (cs : List Char) : List Char := stripWhile (fun x => x = c) cs

/-- `s.find(c)`: index of the first occurrence, `-1` if absent. -/
def pyFindAux (c : Char) : List Char → Nat → Int
| [], _ => -1
| x :: xs, i => if x = c then (i : Int) else pyFindAux c xs (i + 1)

/-- `s.find(c)` from position 0. -/
def pyFind (c : Char) (cs : List Char) : Int := pyFindAux c cs 0

/-- Python slice `s[a:b]` with negative-index normalization and clamping. -/
def pySlice (cs : List Char) (a b : Int) : List Char :=
  let n : Int := (cs.length : Int)
  let a1 : Int := if a < 0 then a + n else a
  let b1 : Int := if b < 0 then b + n else b
  ((cs.take (min b1 n).toNat).drop (max a1 0).toNat)

/-- Digit-string value accumulator; `none` as soon as a non-digit appears. -/
def digitsValAux : List Char → Nat → Option Nat
| [], acc => some acc
| c :: cs, acc => if c.isDigit then digitsValAux cs (acc * 10 + (c.toNat - 48)) else none

/-- Python `int(s)` on the decimal-literal subset this program can receive:
optional surrounding whitespace, optional sign, one or more digits.  Any
other shape (e.g. an HTTP-date `Retry-After`) raises `ValueError`, modelled
as `none`. -/
def parseIntStr (s : String) : Option Int :=
  match pyStrip s.data with
  | [] => none
  | c :: cs =>
    if c = '-' then
      match cs with
      | [] => none
      | _ => (digitsValAux cs 0).map (fun n => -(n : Int))
    else if c = '+' then
      match cs with
      | [] => none
      | _ => (digitsValAux cs 0).map (fun n => (n : Int))
    else (digitsValAux (c :: cs) 0).map (fun n => (n : Int))

/-- All characters are digits. -/
def allDigits (cs : List Char) : Bool := cs.all Char.isDigit

/-- Value of a digit string (digits assumed). -/
def digitsVal (cs : List Char) : Nat := cs.foldl (fun acc c => acc * 10 + (c.toNat - 48)) 0

/-- Python `float(s)` on the plain decimal subset (optional sign, digits with
an optional fractional part; no exponents/inf/nan, which the program's price
fields never carry).  `"abc"` → `none` (ValueError). -/
def parseDecimal (s : String) : Option ℚ :=
  match pyStrip s.data with
  | [] => none
  | c :: cs =>
    let core : List Char → Option ℚ := fun ds =>
      match pySplit '.' ds with
      | [ip] => if !ip.isEmpty && allDigits ip then some ((digitsVal ip : ℚ)) else none
      | [ip, fp] =>
        if (!ip.isEmpty || !fp.isEmpty) && allDigits ip && allDigits fp then
          some ((digitsVal ip : ℚ) + (digitsVal fp : ℚ) / ((10 : ℚ) ^ fp.length))
        else none
      | _ => none
    if c = '-' then (core cs).map Neg.neg
    else if c = '+' then core cs
    else core (c :: cs)

/-! ## `parse_link_header` (`shopify_api.py:20-40`) -/

/-- Python dict assignment `links[rel] = url` on an association list (replace
an existing binding, else append; keys stay unique). -/
def dictInsert (d : List (List Char × List Char)) (k v : List Char) : List (List Char × List Char) :=
  if d.any (fun kv => kv.1 == k) then d.map (fun kv => if kv.1 == k then (k, v) else kv)
  else d ++ [(k, v)]

/-- The loop body of `parse_link_header` over the comma-separated parts.
`none` models the uncaught `IndexError` from `rel_part.split("=")[1]` when a
segment's second field contains no `=`. -/
def parseLinkParts : List (List Char) → List (List Char × List Char) → Option (List (List Char × List Char))
| [], links => some links
| p :: ps, links =>
  match pySplit ';' (pyStrip p) with
  | s0 :: s1 :: _ =>
    let urlPart := pyStrip s0
    let relPart := pyStrip s1
    let url := pySlice urlPart (pyFind '<' urlPart + 1) (pyFind '>' urlPart)
    match (pySplit '=' relPart).get? 1 with
    | none => none
    | some r1 => parseLinkParts ps (dictInsert links (pyStripChar quoteChar r1) url)
  | _ => parseLinkParts ps links

/-- `parse_link_header(header)`: `rel → url` dictionary, `{}` for an empty
header; `none` models an uncaught exception while parsing. -/
def parse_link_header (header : String) : Option (List (List Char × List Char)) :=
  if header.data.isEmpty then some [] else parseLinkParts (pySplit ',' header.data) []

/-- `links.get("next")` as used by `fetch_all_rest`, including Python
truthiness (`while links.get("next")`: an empty url ends the loop).  The
outer `Option` is the parse exception; the inner one is presence of a
usable next url. -/
def getNextLink (header : String) : Option (Option (List Char)) :=
  (parse_link_header header).map (fun links =>
    match List.lookup "next".data links with
    | some u => if u.isEmpty then none else some u
    | none => none)

/-! ## `fetch_all_rest` (`shopify_api.py:73-108`) -/

/-- One page response: the item array extracted under `item_key`, plus the
raw `Link` response header. -/
structure PageResp (α : Type) where
  items : List α
  linkHeader : String
deriving DecidableEq

/-- `fetch_all_rest`, fed the successive page responses the server returns.
Mirrors the loop: extend the accumulator with the page's items, parse the
`Link` header, follow `next` while present.  `none` models a run that does
not return normally with exactly these pages: a link-parse exception, or a
`next` cursor advertised when the model has no further response. -/
def fetch_all_rest {α : Type} : List (PageResp α) → Option (List α)
| [] => none
| [p] =>
  match getNextLink p.linkHeader with
  | none => none
  | some none => some p.items
  | some (some _) => none
| p :: q :: qs =>
  match getNextLink p.linkHeader with
  | none => none
  | some none => some p.items
  | some (some _) => (fetch_all_rest (q :: qs)).map (fun tail => p.items ++ tail)

/-! ## `request_with_retries` (`shopify_api.py:43-70`) -/

/-- Outcome of one underlying HTTP attempt: a transport-level
`requests.exceptions.RequestException`, or a response with a status code and
an optional `Retry-After` header value. -/
inductive AttemptOutcome where
| transportErr
| response (status : Nat) (retryAfter : Option String)
deriving DecidableEq

/-- How `request_with_retries` ends. -/
inductive FetchResult where
| success (attempt : Nat) (status : Nat)
| exhausted
| retryAfterCrash (attempt : Nat)
deriving DecidableEq

/-- Observable trace of one `request_with_retries` call: the result plus the
sequence of `time.sleep` durations performed, in order. -/
structure RunTrace where
  result : FetchResult
  sleeps : List Int
deriving DecidableEq

/-- The retry loop.  `i` is the attempt index, `fuel` the remaining
iterations of `for attempt in range(max_retries)`, `backoff` is
`sleep_seconds`, `sleeps` the sleep log so far.
* transport error: caught, sleep `backoff`, double it, next attempt;
* 429: `retry_after = int(headers.get("Retry-After", sleep_seconds))` — a
  non-numeric header raises an uncaught `ValueError` (`retryAfterCrash`);
  otherwise sleep that value, double the backoff, next attempt;
* any other status ≥ 400: `raise_for_status` raises `HTTPError` (a
  `RequestException`), caught like a transport error;
* otherwise the response is returned.
Exhausted fuel is the final `raise RuntimeError`. -/
def requestWithRetriesAux (outcomes : Nat → AttemptOutcome) : Nat → Nat → Int → List Int → RunTrace
| _, 0, _, sleeps => ⟨.exhausted, sleeps⟩
| i, fuel + 1, backoff, sleeps =>
  match outcomes i with
  | .transportErr => requestWithRetriesAux outcomes (i + 1) fuel (backoff * 2) (sleeps ++ [backoff])
  | .response status ra =>
    if status = 429 then
      match ra with
      | none => requestWithRetriesAux outcomes (i + 1) fuel (backoff * 2) (sleeps ++ [backoff])
      | some h =>
        match parseIntStr h with
        | some n => requestWithRetriesAux outcomes (i + 1) fuel (backoff * 2) (sleeps ++ [n])
        | none => ⟨.retryAfterCrash i, sleeps⟩
    else if 400 ≤ status then
      requestWithRetriesAux outcomes (i + 1) fuel (backoff * 2) (sleeps ++ [backoff])
    else ⟨.success i status, sleeps⟩

/-- `request_with_retries(url, max_retries)` with `sleep_seconds = 1`. -/
def request_with_retries (outcomes : Nat → AttemptOutcome) (maxRetries : Nat := 5) : RunTrace :=
  requestWithRetriesAux outcomes 0 maxRetries 1 []

/-- An attempt outcome the loop absorbs and retries past: a transport error,
or a status ≥ 400 that is not a 429 carrying an unparsable `Retry-After`. -/
def isRetryable : AttemptOutcome → Bool
| .transportErr => true
| .response status ra =>
  if status = 429 then
    match ra with
    | none => true
    | some h => (parseIntStr h).isSome
  else decide (400 ≤ status)

/-! ## Data model (`sync.py`, `database.py`) -/

/-- Epoch-seconds model of a timezone-aware UTC `datetime`. -/
abbrev Timestamp := Int

/-- A raw JSON price value as the program can receive it: a number, a
string, or an explicit `null`.  `float` of a number is the number, of a
string is `parseDecimal`, of `None` raises `TypeError`. -/
inductive PriceJson where
| pnum (v : ℚ)
| pstr (s : String)
| pnull
deriving DecidableEq

/-- Python `float(x.get(field, 0.0))` wrapped in `try/except` as in
`fetch_and_store_orders`: a missing field defaults to `0.0` (so the stored
value is `0`), a present but malformed or null field raises and is caught,
storing NULL (`none`). -/
def coercePrice : Option PriceJson → Option ℚ
| none => some 0
| some (.pnum v) => some v
| some (.pstr s) => parseDecimal s
| some .pnull => none

/-- A fetched product variant (`p["variants"]` element).  `v["id"]` is a
required key (a `KeyError` would abort the pass before any commit), the rest
are `v.get(...)`. -/
structure Variant where
  id : Nat
  title : Option String
  sku : Option String
  price : Option String
  compare_at_price : Option String
  position : Option Int
  option1 : Option String
  option2 : Option String
  option3 : Option String
  created_at : Option String
  updated_at : Option String
deriving DecidableEq

/-- A fetched product.  `updated_at` is `none` when missing or unparsable
(such a record is stored but contributes nothing to the watermark). -/
structure Product where
  id : Nat
  title : Option String
  vendor : Option String
  product_type : Option String
  created_at : Option String
  updated_at : Option Timestamp
  variants : List Variant
deriving DecidableEq

/-- A fetched customer. -/
structure Customer where
  id : Nat
  first_name : Option String
  last_name : Option String
  email : Option String
  phone : Option String
  created_at : Option String
  updated_at : Option Timestamp
deriving DecidableEq

/-- The embedded `customer` sub-object of an order (only its `id` is read). -/
structure EmbeddedCustomer where
  id : Option Nat
deriving DecidableEq

/-- A fetched order line item.  `li.get("id")` may be absent (`none`), in
which case the `INSERT OR REPLACE` runs with a NULL primary key. -/
structure LineItem where
  id : Option Nat
  product_id : Option Nat
  variant_id : Option Nat
  title : Option String
  quantity : Option Int
  price : Option PriceJson
  sku : Option String
deriving DecidableEq

/-- A fetched order.  `o["id"]` is required; `total_price` is the raw JSON
value under that key when present. -/
structure Order where
  id : Nat
  order_number : Option Nat
  email : Option String
  currency : Option String
  created_at : Option String
  updated_at : Option Timestamp
  financial_status : Option String
  fulfillment_status : Option String
  customer : Option EmbeddedCustomer
  total_price : Option PriceJson
  line_items : List LineItem
deriving DecidableEq

/-- A `products` table row (non-key columns; `raw` is the verbatim record,
standing for `raw_json = json.dumps(p)`). -/
structure ProductRow where
  title : Option String
  vendor : Option String
  product_type : Option String
  created_at : Option String
  updated_at : Option Timestamp
  raw : Product
deriving DecidableEq

/-- A `product_variants` table row. -/
structure VariantRow where
  product_id : Nat
  title : Option String
  sku : Option String
  price : Option String
  compare_at_price : Option String
  position : Option Int
  option1 : Option String
  option2 : Option String
  option3 : Option String
  created_at : Option String
  updated_at : Option String
  raw : Variant
deriving DecidableEq

/-- A `customers` table row. -/
structure CustomerRow where
  first_name : Option String
  last_name : Option String
  email : Option String
  phone : Option String
  created_at : Option String
  updated_at : Option Timestamp
  raw : Customer
deriving DecidableEq

/-- An `orders` table row. -/
structure OrderRow where
  order_number : Option Nat
  customer_id : Option Nat
  email : Option String
  total_price : Option ℚ
  currency : Option String
  created_at : Option String
  updated_at : Option Timestamp
  financial_status : Option String
  fulfillment_status : Option String
  raw : Order
deriving DecidableEq

/-- A `line_items` table row. -/
structure LineItemRow where
  order_id : Nat
  product_id : Option Nat
  variant_id : Option Nat
  title : Option String
  quantity : Int
  price : Option ℚ
  sku : Option String
  raw : LineItem
deriving DecidableEq

/-- The product row written at `sync.py:51-62`. -/
def productRowOf (p : Product) : ProductRow :=
  ⟨p.title, p.vendor, p.product_type, p.created_at, p.updated_at, p⟩

/-- The variant row written at `sync.py:69-87` (`product_id` is the parent's
id). -/
def variantRowOf (pid : Nat) (v : Variant) : VariantRow :=
  ⟨pid, v.title, v.sku, v.price, v.compare_at_price, v.position, v.option1, v.option2, v.option3,
   v.created_at, v.updated_at, v⟩

/-- The customer row written at `sync.py:132-144`. -/
def customerRowOf (c : Customer) : CustomerRow :=
  ⟨c.first_name, c.last_name, c.email, c.phone, c.created_at, c.updated_at, c⟩

/-- The order row written at `sync.py:203-219`: `customer_id` from the
embedded customer when present, `total_price` through the coercion. -/
def orderRowOf (o : Order) : OrderRow :=
  ⟨o.order_number,
   (match o.customer with
    | some ec => ec.id
    | none => none),
   o.email, coercePrice o.total_price, o.currency, o.created_at, o.updated_at,
   o.financial_status, o.fulfillment_status, o⟩

/-- The line-item row written at `sync.py:235-249` (`order_id` is the parent
order's id; `quantity` defaults to 0; price through the coercion). -/
def lineItemRowOf (oid : Nat) (li : LineItem) : LineItemRow :=
  ⟨oid, li.product_id, li.variant_id, li.title, li.quantity.getD 0, coercePrice li.price, li.sku, li⟩

/-! ## The relational store and the upsert writes -/

/-- The durable store: one keyed table per schema table (`id INTEGER PRIMARY
KEY` → `Nat → Option row`), plus the next auto-assigned rowid for
`line_items` (the only table that can receive a NULL primary key). -/
@[ext]
structure Store where
  products : Nat → Option ProductRow
  product_variants : Nat → Option VariantRow
  customers : Nat → Option CustomerRow
  orders : Nat → Option OrderRow
  line_items : Nat → Option LineItemRow
  liNext : Nat

/-- A store with empty tables (a fresh `init_db` database); SQLite's first
auto rowid is 1. -/
def emptyStore : Store :=
  ⟨fun _ => none, fun _ => none, fun _ => none, fun _ => none, fun _ => none, 1⟩

/-- `INSERT OR REPLACE` keyed by primary key on one table. -/
def upsertT {α : Type} (t : Nat → Option α) (k : Nat) (v : α) : Nat → Option α :=
  fun q => if q = k then some v else t q

/-- One SQL write issued by a sync pass. -/
inductive Wr where
| wprod (k : Nat) (r : ProductRow)
| wvar (k : Nat) (r : VariantRow)
| wcust (k : Nat) (r : CustomerRow)
| word (k : Nat) (r : OrderRow)
| wli (k : Nat) (r : LineItemRow)
| wliAuto (r : LineItemRow)
deriving DecidableEq

/-- Effect of one write on the store.  `wliAuto` is `INSERT OR REPLACE INTO
line_items` with a NULL id: SQLite assigns a fresh rowid. -/
def applyW (s : Store) : Wr → Store
| .wprod k r => { s with products := upsertT s.products k r }
| .wvar k r => { s with product_variants := upsertT s.product_variants k r }
| .wcust k r => { s with customers := upsertT s.customers k r }
| .word k r => { s with orders := upsertT s.orders k r }
| .wli k r => { s with line_items := upsertT s.line_items k r }
| .wliAuto r => { s with line_items := upsertT s.line_items s.liNext r, liNext := s.liNext + 1 }

/-- Execute a write list in order. -/
def applyWrites (s : Store) (ws : List Wr) : Store := ws.foldl applyW s

/-- The writes of the products loop (`sync.py:45-95`): per product, the
product row then its variant rows, in list order. -/
def productWrites (items : List Product) : List Wr :=
  items.flatMap (fun p => .wprod p.id (productRowOf p) :: p.variants.map (fun v => .wvar v.id (variantRowOf p.id v)))

/-- The writes of the customers loop (`sync.py:127-152`). -/
def customerWrites (items : List Customer) : List Wr :=
  items.map (fun c => .wcust c.id (customerRowOf c))

/-- The writes of the orders loop (`sync.py:185-257`): per order, the order
row then its line-item rows; a line item without an id becomes a NULL-key
insert. -/
def orderWrites (items : List Order) : List Wr :=
  items.flatMap (fun o => .word o.id (orderRowOf o) ::
    o.line_items.map (fun li =>
      match li.id with
      | some k => .wli k (lineItemRowOf o.id li)
      | none => .wliAuto (lineItemRowOf o.id li)))

/-- The store/upsert step of `fetch_and_store_products` on a fetched set. -/
def storeProducts (items : List Product) (s : Store) : Store := applyWrites s (productWrites items)

/-- The store/upsert step of `fetch_and_store_customers`. -/
def storeCustomers (items : List Customer) (s : Store) : Store := applyWrites s (customerWrites items)

/-- The store/upsert step of `fetch_and_store_orders`. -/
def storeOrders (items : List Order) (s : Store) : Store := applyWrites s (orderWrites items)

/-! ## Watermarks and the per-entity passes -/

/-- The fold step of the `max_updated` computation (`sync.py:89-95`): a
record with a parseable `updated_at` replaces the running maximum when
strictly newer. -/
def stepMax (acc : Option Timestamp) (o : Option Timestamp) : Option Timestamp :=
  match o with
  | none => acc
  | some t =>
    match acc with
    | none => some t
    | some m => if m < t then some t else some m

/-- `max_updated` over the fetched records' `updated_at` values. -/
def computeMax (l : List (Option Timestamp)) : Option Timestamp := l.foldl stepMax none

/-- The watermark update after a pass (`sync.py:100-101`): set to
`max_updated` when one exists, otherwise leave the stored value alone. -/
def newWatermark (old mx : Option Timestamp) : Option Timestamp :=
  match mx with
  | some m => some m
  | none => old

/-- Durable state shared across passes: the relational store plus the
`metadata` watermark rows (`products_last_sync`, `customers_last_sync`,
`orders_last_sync`). -/
@[ext]
structure PipelineState where
  store : Store
  products_last_sync : Option Timestamp
  customers_last_sync : Option Timestamp
  orders_last_sync : Option Timestamp

/-- A never-synced pipeline state over an empty store. -/
def initState : PipelineState := ⟨emptyStore, none, none, none⟩

/-- The store-and-watermark step of `fetch_and_store_products`, applied to
the records the fetch returned. -/
def fetch_and_store_products (items : List Product) (st : PipelineState) : PipelineState :=
  { st with
    store := storeProducts items st.store,
    products_last_sync :=
      newWatermark st.products_last_sync (computeMax (items.map Product.updated_at)) }

/-- The store-and-watermark step of `fetch_and_store_customers`. -/
def fetch_and_store_customers (items : List Customer) (st : PipelineState) : PipelineState :=
  { st with
    store := storeCustomers items st.store,
    customers_last_sync :=
      newWatermark st.customers_last_sync (computeMax (items.map Customer.updated_at)) }

/-- The store-and-watermark step of `fetch_and_store_orders`. -/
def fetch_and_store_orders (items : List Order) (st : PipelineState) : PipelineState :=
  { st with
    store := storeOrders items st.store,
    orders_last_sync :=
      newWatermark st.orders_last_sync (computeMax (items.map Order.updated_at)) }

/-- The `updated_at_min` filter a pass sends (`sync.py:28-34`): only when
`incremental` and a watermark is stored, and then exactly the stored
watermark minus the 60-second lookback (`fromisoformat`/`isoformat_for_api`
round-trip the instant exactly, so they are the identity here). -/
def updated_at_min_param (incremental : Bool) (last_sync : Option Timestamp) : Option Timestamp :=
  match incremental, last_sync with
  | true, some w => some (w - 60)
  | _, _ => none

/-- Whether a record with the given `updated_at` satisfies the server-side
`updated_at_min` filter (no filter admits everything). -/
def inFetchWindow (p : Option Timestamp) (t : Timestamp) : Bool :=
  match p with
  | some m => decide (m ≤ t)
  | none => true

/-! ## Orchestration (`main.py:run_full_sync`) and fault models -/

/-- `run_full_sync`'s three fetch-and-store passes in order, where each
argument is the outcome the Fetch Client would produce for that pass (an
exhausted-retries `RuntimeError`, or the fetched records).  A failed fetch
raises before its pass opens the database, so that pass writes nothing; the
exception propagates through `run_full_sync`'s `try/except` (which
re-raises), aborting the remaining passes.  Earlier passes' effects stay
committed. -/
def run_full_sync (fp : Except String (List Product)) (fc : Except String (List Customer))
    (fo : Except String (List Order)) (st : PipelineState) :
    Except String Unit × PipelineState :=
  match fp with
  | .error e => (.error e, st)
  | .ok pitems =>
    let st1 := fetch_and_store_products pitems st
    match fc with
    | .error e => (.error e, st1)
    | .ok citems =>
      let st2 := fetch_and_store_customers citems st1
      match fo with
      | .error e => (.error e, st2)
      | .ok oitems => (.ok (), fetch_and_store_orders oitems st2)

/-- Execute a pass's writes with a fault model: `fails w = true` means the
`cur.execute` for that row raises.  The exception propagates out of the loop
before `conn.commit()`, so the transaction is discarded: `none` means the
pass raised and the durable store is unchanged. -/
def execWrites (fails : Wr → Bool) (s : Store) : List Wr → Option Store
| [] => some s
| w :: ws => if fails w then none else execWrites fails (applyW s w) ws

/-- `fetch_and_store_customers` under the storage-fault model: `none` when a
row write raised (nothing committed, watermark untouched). -/
def fetch_and_store_customers_faulty (fails : Wr → Bool) (items : List Customer)
    (st : PipelineState) : Option PipelineState :=
  (execWrites fails st.store (customerWrites items)).map (fun s =>
    { st with
      store := s,
      customers_last_sync :=
        newWatermark st.customers_last_sync (computeMax (items.map Customer.updated_at)) })

/-- `fetch_and_store_orders` under the storage-fault model. -/
def fetch_and_store_orders_faulty (fails : Wr → Bool) (items : List Order)
    (st : PipelineState) : Option PipelineState :=
  (execWrites fails st.store (orderWrites items)).map (fun s =>
    { st with
      store := s,
      orders_last_sync :=
        newWatermark st.orders_last_sync (computeMax (items.map Order.updated_at)) })

/-! ## Generic keyed-table machinery (for the idempotence proofs) -/

/-- Apply a list of keyed writes to one table, in order. -/
def applyKVs {α : Type} (t : Nat → Option α) : List (Nat × α) → (Nat → Option α)
| [] => t
| kv :: rest => applyKVs (upsertT t kv.1 kv.2) rest

/-- The last value written to key `k`, if any. -/
def findLastKV {α : Type} : List (Nat × α) → Nat → Option α
| [], _ => none
| kv :: rest, k =>
  match findLastKV rest k with
  | some v => some v
  | none => if kv.1 = k then some kv.2 else none

/-- Projection of a write onto the `products` table. -/
def prodKV : Wr → Option (Nat × ProductRow)
| .wprod k r => some (k, r)
| _ => none

/-- Projection of a write onto the `product_variants` table. -/
def varKV : Wr → Option (Nat × VariantRow)
| .wvar k r => some (k, r)
| _ => none

/-- Projection of a write onto the `customers` table. -/
def custKV : Wr → Option (Nat × CustomerRow)
| .wcust k r => some (k, r)
| _ => none

/-- Projection of a write onto the `orders` table. -/
def ordKV : Wr → Option (Nat × OrderRow)
| .word k r => some (k, r)
| _ => none

/-- Projection of a write onto the `line_items` table (keyed writes only). -/
def liKV : Wr → Option (Nat × LineItemRow)
| .wli k r => some (k, r)
| _ => none

/-- Whether a single write is a NULL-primary-key line-item insert. -/
def isAutoW : Wr → Bool
| .wliAuto _ => true
| _ => false

/-- Whether a write list contains a NULL-primary-key line-item insert. -/
def hasAuto (ws : List Wr) : Bool := ws.any isAutoW

/-! ## Concrete inputs for counterexamples and witnesses -/

/-- A line item whose `id` field is absent from the payload. -/
def cexLineItem : LineItem := ⟨none, some 11, some 12, some "Tea", some 1, some (.pnum 5), none⟩

/-- An order owning one id-less line item. -/
def cexOrderNoLiId : Order :=
  ⟨1, some 1001, none, some "USD", none, some 100, none, none, none, some (.pnum 5), [cexLineItem]⟩

/-- A product updated at t = 100. -/
def p100 : Product := ⟨1, some "A", none, none, none, some 100, []⟩

/-- A product updated at t = 50 (older than `p100` but inside the 60-second
lookback window of a watermark at 100). -/
def p50 : Product := ⟨2, some "B", none, none, none, some 50, []⟩

/-- An order whose `total_price` key is missing, with one line item whose
price is the malformed string `"abc"`. -/
def cexOrderMissingPrice : Order :=
  ⟨7, none, none, none, none, some 10, none, none, none, none,
   [⟨some 70, none, none, some "X", some 2, some (.pstr "abc"), none⟩]⟩

/-- A customer with id 1. -/
def cexCust1 : Customer := ⟨1, some "Ann", none, none, none, none, some 10⟩

/-- A customer with id 2. -/
def cexCust2 : Customer := ⟨2, some "Bob", none, none, none, none, some 20⟩

/-- A fault model where exactly the write of customer row 1 fails. -/
def cexFailOnCust1 : Wr → Bool
| .wcust 1 _ => true
| _ => false

/-- Attempt outcomes that are all 429 with an HTTP-date `Retry-After`. -/
def nonNumericRA : Nat → AttemptOutcome :=
  fun _ => .response 429 (some "Fri, 01 Jan 2027 00:00:00 GMT")

/-- Attempt outcomes that are all transport errors. -/
def allTransportErr : Nat → AttemptOutcome := fun _ => .transportErr

/-- A transport error, then a 200 response. -/
def okSecondTry : Nat → AttemptOutcome :=
  fun i => if i = 0 then .transportErr else .response 200 none

/-- Attempt outcomes that are all 429 with `Retry-After: 3`. -/
def rateLimited3 : Nat → AttemptOutcome := fun _ => .response 429 (some "3")

/-- First page of a two-page feed, advertising a next cursor. -/
def wPage1 : PageResp Nat :=
  ⟨[1, 2], "<https://shop.example/products.json?page_info=p2>; rel=\"next\""⟩

/-- Last page of the feed: no `Link` header. -/
def wPage2 : PageResp Nat := ⟨[3], ""⟩

/-- A product with one variant, for the idempotence witness. -/
def wProd : Product :=
  ⟨1, some "P", none, none, none, some 5,
   [⟨21, some "V", none, some "9.99", none, some 1, none, none, none, none, none⟩]⟩

/-- An order whose line item carries an id, for the idempotence witness. -/
def wOrderWithId : Order :=
  ⟨3, none, none, none, none, some 30, none, none, some ⟨some 9⟩, some (.pstr "19.99"),
   [⟨some 31, some 1, some 21, none, some 2, some (.pnum 7), none⟩]⟩

/-- A line item with id 81, for the price-coercion witness. -/
def wLineItem81 : LineItem := ⟨some 81, none, none, none, some 1, some (.pnum 5), none⟩

/-- An order whose `total_price` is the malformed string `"abc"`. -/
def wOrderAbc : Order :=
  ⟨8, none, none, none, none, some 40, none, none, none, some (.pstr "abc"), [wLineItem81]⟩

/-! ## Helper lemmas: keyed tables -/

/-- Looking up a table after a write list: the last write to the key wins,
otherwise the original entry shows through. -/
theorem applyKVs_lookup {α : Type} (ps : List (Nat × α)) : ∀ (t : Nat → Option α) (k : Nat),
    applyKVs t ps k =
      match findLastKV ps k with
      | some v => some v
      | none => t k := by
  induction ps with
  | nil => intro t k; simp [applyKVs, findLastKV]
  | cons kv rest ih =>
    intro t k
    rw [applyKVs, ih, findLastKV]
    rcases h : findLastKV rest k with _ | v
    · simp only [upsertT]
      rcases eq_or_ne k kv.1 with hk | hk
      · simp [hk]
      · simp [hk, Ne.symm hk]
    · rfl

/-- Replaying the same keyed writes is a no-op. -/
theorem applyKVs_idem {α : Type} (ps : List (Nat × α)) (t : Nat → Option α) :
    applyKVs (applyKVs t ps) ps = applyKVs t ps := by
  funext k
  rw [applyKVs_lookup, applyKVs_lookup]
  rcases findLastKV ps k with _ | v <;> simp

/-- A key that some write targets is present after the writes. -/
theorem findLastKV_of_mem {α : Type} (ps : List (Nat × α)) (k : Nat) (r : α)
    (h : (k, r) ∈ ps) : ∃ v, findLastKV ps k = some v := by
  induction ps with
  | nil => cases h
  | cons kv rest ih =>
    rw [findLastKV]
    rcases hf : findLastKV rest k with _ | v
    · rcases List.mem_cons.mp h with h1 | h1
      · subst h1; simp
      · rcases ih h1 with ⟨v, hv⟩; rw [hv] at hf; cases hf
    · exact ⟨v, rfl⟩

/-! ## Helper lemmas: decomposing a pass into per-table write lists -/

/-- The `products` table after a write list. -/
theorem applyWrites_products (ws : List Wr) : ∀ s : Store,
    (applyWrites s ws).products = applyKVs s.products (ws.filterMap prodKV) := by
  induction ws with
  | nil => intro s; rfl
  | cons w rest ih =>
    intro s
    rw [applyWrites, List.foldl_cons, ← applyWrites, ih, List.filterMap_cons]
    cases w <;> simp [applyW, prodKV, applyKVs]

/-- The `product_variants` table after a write list. -/
theorem applyWrites_variants (ws : List Wr) : ∀ s : Store,
    (applyWrites s ws).product_variants = applyKVs s.product_variants (ws.filterMap varKV) := by
  induction ws with
  | nil => intro s; rfl
  | cons w rest ih =>
    intro s
    rw [applyWrites, List.foldl_cons, ← applyWrites, ih, List.filterMap_cons]
    cases w <;> simp [applyW, varKV, applyKVs]

/-- The `customers` table after a write list. -/
theorem applyWrites_customers (ws : List Wr) : ∀ s : Store,
    (applyWrites s ws).customers = applyKVs s.customers (ws.filterMap custKV) := by
  induction ws with
  | nil => intro s; rfl
  | cons w rest ih =>
    intro s
    rw [applyWrites, List.foldl_cons, ← applyWrites, ih, List.filterMap_cons]
    cases w <;> simp [applyW, custKV, applyKVs]

/-- The `orders` table after a write list. -/
theorem applyWrites_orders (ws : List Wr) : ∀ s : Store,
    (applyWrites s ws).orders = applyKVs s.orders (ws.filterMap ordKV) := by
  induction ws with
  | nil => intro s; rfl
  | cons w rest ih =>
    intro s
    rw [applyWrites, List.foldl_cons, ← applyWrites, ih, List.filterMap_cons]
    cases w <;> simp [applyW, ordKV, applyKVs]

/-- Without NULL-key inserts, the `line_items` table is also a plain keyed
write list, and the auto-rowid counter does not move. -/
theorem applyWrites_line_items (ws : List Wr) : ∀ s : Store, hasAuto ws = false →
    (applyWrites s ws).line_items = applyKVs s.line_items (ws.filterMap liKV) ∧
      (applyWrites s ws).liNext = s.liNext := by
  induction ws with
  | nil => intro s _; exact ⟨rfl, rfl⟩
  | cons w rest ih =>
    intro s hna
    have hrest : hasAuto rest = false := by
      simp only [hasAuto, List.any_cons, Bool.or_eq_false_iff] at hna
      exact hna.2
    rw [applyWrites, List.foldl_cons, ← applyWrites, List.filterMap_cons]
    rcases ih (applyW s w) hrest with ⟨h1, h2⟩
    cases w with
    | wliAuto r => simp [hasAuto, isAutoW] at hna
    | wprod k r => exact ⟨by simpa [applyW, liKV, applyKVs] using h1, by simpa [applyW] using h2⟩
    | wvar k r => exact ⟨by simpa [applyW, liKV, applyKVs] using h1, by simpa [applyW] using h2⟩
    | wcust k r => exact ⟨by simpa [applyW, liKV, applyKVs] using h1, by simpa [applyW] using h2⟩
    | word k r => exact ⟨by simpa [applyW, liKV, applyKVs] using h1, by simpa [applyW] using h2⟩
    | wli k r => exact ⟨by simpa [applyW, liKV, applyKVs] using h1, by simpa [applyW] using h2⟩

/-! ## Helper lemmas: write-list shapes of the three passes -/

/-- A products pass never issues a NULL-key line-item insert. -/
theorem hasAuto_productWrites (items : List Product) : hasAuto (productWrites items) = false := by
  rw [hasAuto, List.any_eq_false]
  intro w hw
  simp only [productWrites, List.mem_flatMap, List.mem_cons, List.mem_map] at hw
  rcases hw with ⟨p, _, hw | ⟨v, _, hw⟩⟩ <;> subst hw <;> simp [isAutoW]

/-- A customers pass never issues a NULL-key line-item insert. -/
theorem hasAuto_customerWrites (items : List Customer) : hasAuto (customerWrites items) = false := by
  rw [hasAuto, List.any_eq_false]
  intro w hw
  simp only [customerWrites, List.mem_map] at hw
  rcases hw with ⟨c, _, hw⟩
  subst hw
  simp [isAutoW]

/-- An orders pass issues no NULL-key insert when every line item of every
order carries an id. -/
theorem hasAuto_orderWrites (items : List Order)
    (h : ∀ o ∈ items, ∀ li ∈ o.line_items, li.id.isSome) :
    hasAuto (orderWrites items) = false := by
  rw [hasAuto, List.any_eq_false]
  intro w hw
  simp only [orderWrites, List.mem_flatMap, List.mem_cons, List.mem_map] at hw
  rcases hw with ⟨o, ho, hw | ⟨li, hli, hw⟩⟩
  · subst hw; simp [isAutoW]
  · rcases hid : li.id with _ | k
    · have := h o ho li hli
      rw [hid] at this
      cases this
    · rw [hid] at hw
      subst hw
      simp [isAutoW]

/-- `productWrites` touches no other entity's table. -/
theorem productWrites_cust (items : List Product) :
    (productWrites items).filterMap custKV = [] := by
  induction items with
  | nil => rfl
  | cons p rest ih =>
    simp only [productWrites, List.flatMap_cons, List.filterMap_append, List.filterMap_cons] at *
    simp [custKV, ih, List.filterMap_map, Function.comp]

/-- `productWrites` writes no order row. -/
theorem productWrites_ord (items : List Product) :
    (productWrites items).filterMap ordKV = [] := by
  induction items with
  | nil => rfl
  | cons p rest ih =>
    simp only [productWrites, List.flatMap_cons, List.filterMap_append, List.filterMap_cons] at *
    simp [ordKV, ih, List.filterMap_map, Function.comp]

/-- `productWrites` writes no line-item row. -/
theorem productWrites_li (items : List Product) :
    (productWrites items).filterMap liKV = [] := by
  induction items with
  | nil => rfl
  | cons p rest ih =>
    simp only [productWrites, List.flatMap_cons, List.filterMap_append, List.filterMap_cons] at *
    simp [liKV, ih, List.filterMap_map, Function.comp]

/-! ## Helper lemmas: idempotence of a NULL-key-free write list -/

/-- Replaying a write list with no NULL-key inserts is a no-op on the whole
store. -/
theorem applyWrites_idem (ws : List Wr) (s : Store) (hna : hasAuto ws = false) :
    applyWrites (applyWrites s ws) ws = applyWrites s ws := by
  rcases applyWrites_line_items ws s hna with ⟨hli, hnext⟩
  rcases applyWrites_line_items ws (applyWrites s ws) hna with ⟨hli2, hnext2⟩
  have hp : (applyWrites (applyWrites s ws) ws).products = (applyWrites s ws).products := by
    rw [applyWrites_products, applyWrites_products, applyKVs_idem]
  have hv : (applyWrites (applyWrites s ws) ws).product_variants
      = (applyWrites s ws).product_variants := by
    rw [applyWrites_variants, applyWrites_variants, applyKVs_idem]
  have hc : (applyWrites (applyWrites s ws) ws).customers = (applyWrites s ws).customers := by
    rw [applyWrites_customers, applyWrites_customers, applyKVs_idem]
  have ho : (applyWrites (applyWrites s ws) ws).orders = (applyWrites s ws).orders := by
    rw [applyWrites_orders, applyWrites_orders, applyKVs_idem]
  have hl : (applyWrites (applyWrites s ws) ws).line_items = (applyWrites s ws).line_items := by
    rw [hli2, hli, applyKVs_idem]
  have hn : (applyWrites (applyWrites s ws) ws).liNext = (applyWrites s ws).liNext := by
    rw [hnext2]
  cases hend : applyWrites (applyWrites s ws) ws
  cases hone : applyWrites s ws
  rw [hend, hone] at hp hv hc ho hl hn
  simp_all

/-! ## Helper lemmas: the watermark maximum -/

/-- `stepMax` applied to a parseable timestamp always yields a value. -/
theorem stepMax_always_some (acc : Option Timestamp) (t : Timestamp) :
    ∃ v, stepMax acc (some t) = some v := by
  cases acc with
  | none => exact ⟨t, rfl⟩
  | some a =>
    by_cases h : a < t
    · exact ⟨t, by simp [stepMax, h]⟩
    · exact ⟨a, by simp [stepMax, h]⟩

/-- The `max_updated` fold yields `none` exactly when it started at `none`
and no record carried a parseable `updated_at`. -/
theorem foldl_stepMax_none (l : List (Option Timestamp)) : ∀ acc : Option Timestamp,
    l.foldl stepMax acc = none ↔ acc = none ∧ ∀ t : Timestamp, some t ∉ l := by
  induction l with
  | nil => intro acc; simp
  | cons o rest ih =>
    intro acc
    rw [List.foldl_cons, ih]
    cases o with
    | none =>
      have hs : stepMax acc none = acc := rfl
      rw [hs]
      constructor
      · rintro ⟨h1, h2⟩
        refine ⟨h1, ?_⟩
        intro t ht
        rcases List.mem_cons.mp ht with ht | ht
        · cases ht
        · exact h2 t ht
      · rintro ⟨h1, h2⟩
        exact ⟨h1, fun t ht => h2 t (List.mem_cons_of_mem _ ht)⟩
    | some t =>
      rcases stepMax_always_some acc t with ⟨v, hv⟩
      rw [hv]
      refine iff_of_false ?_ ?_
      · rintro ⟨h1, _⟩
        cases h1
      · rintro ⟨_, hall⟩
        exact hall t (List.mem_cons_self _ _)

/-- What a `some` result of the `max_updated` fold means: it bounds every
parseable `updated_at` and the seed, and is itself one of them. -/
theorem foldl_stepMax_some (l : List (Option Timestamp)) : ∀ (acc : Option Timestamp) (m : Timestamp),
    l.foldl stepMax acc = some m →
      (∀ t, some t ∈ l → t ≤ m) ∧ (∀ a, acc = some a → a ≤ m) ∧
        (some m ∈ l ∨ acc = some m) := by
  induction l with
  | nil =>
    intro acc m h
    simp only [List.foldl_nil] at h
    subst h
    refine ⟨by simp, ?_, Or.inr rfl⟩
    intro a ha
    rw [Option.some.injEq] at ha
    subst ha
    exact le_refl _
  | cons o rest ih =>
    intro acc m h
    rw [List.foldl_cons] at h
    rcases ih (stepMax acc o) m h with ⟨h1, h2, h3⟩
    cases o with
    | none =>
      have hs : stepMax acc none = acc := rfl
      rw [hs] at h2 h3
      refine ⟨?_, h2, ?_⟩
      · intro u hu
        rcases List.mem_cons.mp hu with hu | hu
        · cases hu
        · exact h1 u hu
      · rcases h3 with h3 | h3
        · exact Or.inl (List.mem_cons_of_mem _ h3)
        · exact Or.inr h3
    | some t =>
      cases acc with
      | none =>
        have hs : stepMax none (some t) = some t := rfl
        rw [hs] at h2 h3
        have ht : t ≤ m := h2 t rfl
        refine ⟨?_, ?_, ?_⟩
        · intro u hu
          rcases List.mem_cons.mp hu with hu | hu
          · rw [Option.some.injEq] at hu
            subst hu
            exact ht
          · exact h1 u hu
        · intro a ha
          cases ha
        · rcases h3 with h3 | h3
          · exact Or.inl (List.mem_cons_of_mem _ h3)
          · rw [Option.some.injEq] at h3
            subst h3
            exact Or.inl (List.mem_cons_self _ _)
      | some a0 =>
        by_cases hlt : a0 < t
        · have hs : stepMax (some a0) (some t) = some t := by simp [stepMax, hlt]
          rw [hs] at h2 h3
          have ht : t ≤ m := h2 t rfl
          refine ⟨?_, ?_, ?_⟩
          · intro u hu
            rcases List.mem_cons.mp hu with hu | hu
            · rw [Option.some.injEq] at hu
              subst hu
              exact ht
            · exact h1 u hu
          · intro a ha
            rw [Option.some.injEq] at ha
            subst ha
            exact le_trans (le_of_lt hlt) ht
          · rcases h3 with h3 | h3
            · exact Or.inl (List.mem_cons_of_mem _ h3)
            · rw [Option.some.injEq] at h3
              subst h3
              exact Or.inl (List.mem_cons_self _ _)
        · have hs : stepMax (some a0) (some t) = some a0 := by simp [stepMax, hlt]
          rw [hs] at h2 h3
          have ha0 : a0 ≤ m := h2 a0 rfl
          refine ⟨?_, ?_, ?_⟩
          · intro u hu
            rcases List.mem_cons.mp hu with hu | hu
            · rw [Option.some.injEq] at hu
              subst hu
              exact le_trans (not_lt.mp hlt) ha0
            · exact h1 u hu
          · intro a ha
            rw [Option.some.injEq] at ha
            subst ha
            exact ha0
          · rcases h3 with h3 | h3
            · exact Or.inl (List.mem_cons_of_mem _ h3)
            · exact Or.inr h3

/-- `computeMax` is `none` iff no record had a parseable `updated_at`. -/
theorem computeMax_eq_none (l : List (Option Timestamp)) :
    computeMax l = none ↔ ∀ t : Timestamp, some t ∉ l := by
  rw [computeMax, foldl_stepMax_none]
  simp

/-- `computeMax` returns the maximum of the parseable `updated_at`s. -/
theorem computeMax_eq_some (l : List (Option Timestamp)) (m : Timestamp)
    (h : computeMax l = some m) :
    some m ∈ l ∧ ∀ t, some t ∈ l → t ≤ m := by
  rcases foldl_stepMax_some l none m h with ⟨h1, _, h3⟩
  rcases h3 with h3 | h3
  · exact ⟨h3, h1⟩
  · cases h3

/-! ## Helper lemmas: storage faults -/

/-- The faulty write loop: any failing row aborts with nothing committed; no
failing row commits exactly the normal pass. -/
theorem execWrites_spec (fails : Wr → Bool) : ∀ (ws : List Wr) (s : Store),
    (ws.any fails = true → execWrites fails s ws = none) ∧
    (ws.any fails = false → execWrites fails s ws = some (applyWrites s ws)) := by
  intro ws
  induction ws with
  | nil =>
    intro s
    refine ⟨?_, fun _ => rfl⟩
    intro h
    simp at h
  | cons w rest ih =>
    intro s
    constructor
    · intro h
      by_cases hf : fails w
      · simp [execWrites, hf]
      · simp only [List.any_cons, hf, Bool.false_or] at h
        simp only [execWrites, hf, Bool.false_eq_true, if_false]
        exact (ih (applyW s w)).1 h
    · intro h
      simp only [List.any_cons, Bool.or_eq_false_iff] at h
      simp only [execWrites, h.1, Bool.false_eq_true, if_false]
      rw [(ih (applyW s w)).2 h.2]
      rfl

/-! ## Helper lemmas: the retry loop -/

/-- The loop only appends to the sleep log. -/
theorem rwrAux_sleeps (outcomes : Nat → AttemptOutcome) : ∀ (fuel i : Nat) (b : Int) (sl : List Int),
    ∃ t, (requestWithRetriesAux outcomes i fuel b sl).sleeps = sl ++ t := by
  intro fuel
  induction fuel with
  | zero =>
    intro i b sl
    exact ⟨[], by simp [requestWithRetriesAux]⟩
  | succ fuel ih =>
    intro i b sl
    cases ho : outcomes i with
    | transportErr =>
      rcases ih (i + 1) (b * 2) (sl ++ [b]) with ⟨t, ht⟩
      exact ⟨[b] ++ t, by simp [requestWithRetriesAux, ho, ht]⟩
    | response status ra =>
      by_cases h429 : status = 429
      · subst h429
        cases ra with
        | none =>
          rcases ih (i + 1) (b * 2) (sl ++ [b]) with ⟨t, ht⟩
          exact ⟨[b] ++ t, by simp [requestWithRetriesAux, ho, ht]⟩
        | some hdr =>
          cases hn : parseIntStr hdr with
          | none => exact ⟨[], by simp [requestWithRetriesAux, ho, hn]⟩
          | some n =>
            rcases ih (i + 1) (b * 2) (sl ++ [n]) with ⟨t, ht⟩
            exact ⟨[n] ++ t, by simp [requestWithRetriesAux, ho, hn, ht]⟩
      · by_cases h400 : 400 ≤ status
        · rcases ih (i + 1) (b * 2) (sl ++ [b]) with ⟨t, ht⟩
          exact ⟨[b] ++ t, by simp [requestWithRetriesAux, ho, h429, h400, ht]⟩
        · exact ⟨[], by simp [requestWithRetriesAux, ho, h429, h400]⟩

/-- One step of the loop past a retryable outcome: some sleep is logged, the
backoff doubles, the attempt counter advances. -/
theorem rwrAux_step (outcomes : Nat → AttemptOutcome) (i fuel : Nat) (b : Int) (sl : List Int)
    (h : isRetryable (outcomes i) = true) :
    ∃ slp : Int, requestWithRetriesAux outcomes i (fuel + 1) b sl
      = requestWithRetriesAux outcomes (i + 1) fuel (b * 2) (sl ++ [slp]) := by
  cases ho : outcomes i with
  | transportErr => exact ⟨b, by simp [requestWithRetriesAux, ho]⟩
  | response status ra =>
    rw [ho] at h
    simp only [isRetryable] at h
    by_cases h429 : status = 429
    · subst h429
      cases ra with
      | none => exact ⟨b, by simp [requestWithRetriesAux, ho]⟩
      | some hdr =>
        rw [if_pos rfl] at h
        have h2 : (parseIntStr hdr).isSome = true := h
        cases hn : parseIntStr hdr with
        | none => rw [hn] at h2; simp at h2
        | some n => exact ⟨n, by simp [requestWithRetriesAux, ho, hn]⟩
    · rw [if_neg h429] at h
      have h400 : 400 ≤ status := of_decide_eq_true h
      exact ⟨b, by simp [requestWithRetriesAux, ho, h429, h400]⟩

/-- If every attempt in the budget is retryable, the loop ends in the final
`RuntimeError`. -/
theorem rwrAux_exhausted (outcomes : Nat → AttemptOutcome) : ∀ (fuel i : Nat) (b : Int) (sl : List Int),
    (∀ j, j < fuel → isRetryable (outcomes (i + j)) = true) →
    (requestWithRetriesAux outcomes i fuel b sl).result = .exhausted := by
  intro fuel
  induction fuel with
  | zero => intro i b sl _; rfl
  | succ fuel ih =>
    intro i b sl h
    have h0 : isRetryable (outcomes i) = true := by
      have := h 0 (Nat.succ_pos _)
      rwa [Nat.add_zero] at this
    rcases rwrAux_step outcomes i fuel b sl h0 with ⟨slp, hstep⟩
    rw [hstep]
    refine ih (i + 1) (b * 2) (sl ++ [slp]) ?_
    intro j hj
    have := h (j + 1) (by omega)
    rwa [show i + (j + 1) = i + 1 + j by omega] at this

/-- A response passing `raise_for_status` after `d` retryable attempts is
returned as-is. -/
theorem rwrAux_success (outcomes : Nat → AttemptOutcome) :
    ∀ (d fuel i : Nat) (b : Int) (sl : List Int) (s : Nat) (ra : Option String),
    d < fuel → (∀ j, j < d → isRetryable (outcomes (i + j)) = true) →
    outcomes (i + d) = .response s ra → 200 ≤ s → s < 300 →
    (requestWithRetriesAux outcomes i fuel b sl).result = .success (i + d) s := by
  intro d
  induction d with
  | zero =>
    intro fuel i b sl s ra hfuel _ hresp h200 h300
    cases fuel with
    | zero => omega
    | succ fuel =>
      rw [Nat.add_zero] at hresp
      have hne : ¬s = 429 := by omega
      have hlt : ¬400 ≤ s := by omega
      simp [requestWithRetriesAux, hresp, hne, hlt]
  | succ d ih =>
    intro fuel i b sl s ra hfuel hretry hresp h200 h300
    cases fuel with
    | zero => omega
    | succ fuel =>
      have h0 : isRetryable (outcomes i) = true := by
        have := hretry 0 (Nat.succ_pos _)
        rwa [Nat.add_zero] at this
      rcases rwrAux_step outcomes i fuel b sl h0 with ⟨slp, hstep⟩
      rw [hstep]
      have := ih fuel (i + 1) (b * 2) (sl ++ [slp]) s ra (by omega)
        (fun j hj => by
          have := hretry (j + 1) (by omega)
          rwa [show i + (j + 1) = i + 1 + j by omega] at this)
        (by rwa [show i + 1 + d = i + (d + 1) by omega]) h200 h300
      rw [this, show i + 1 + d = i + (d + 1) by omega]

/-! ## Helper lemmas: derived table facts -/

/-- A key that is written is present afterwards. -/
theorem applyKVs_isSome {α : Type} (t : Nat → Option α) (kvs : List (Nat × α)) (k : Nat) (r : α)
    (hm : (k, r) ∈ kvs) : (applyKVs t kvs k).isSome = true := by
  rcases findLastKV_of_mem kvs k r hm with ⟨v, hv⟩
  rw [applyKVs_lookup kvs t k, hv]
  rfl

/-- A products pass leaves the other entities' tables untouched. -/
theorem storeProducts_untouched (items : List Product) (s : Store) :
    (storeProducts items s).customers = s.customers ∧
    (storeProducts items s).orders = s.orders ∧
    (storeProducts items s).line_items = s.line_items := by
  refine ⟨?_, ?_, ?_⟩
  · rw [storeProducts, applyWrites_customers, productWrites_cust]
    rfl
  · rw [storeProducts, applyWrites_orders, productWrites_ord]
    rfl
  · rcases applyWrites_line_items (productWrites items) s (hasAuto_productWrites items) with ⟨h, _⟩
    rw [storeProducts, h, productWrites_li]
    rfl

/-- The order-row writes of one order's line-item loop never touch the
`orders` table. -/
theorem ordKV_liWrites (oid : Nat) (lis : List LineItem) :
    (lis.map (fun li =>
      match li.id with
      | some k => Wr.wli k (lineItemRowOf oid li)
      | none => Wr.wliAuto (lineItemRowOf oid li))).filterMap ordKV = [] := by
  induction lis with
  | nil => rfl
  | cons li rest ih => cases h : li.id <;> simp [List.filterMap_cons, ordKV, h, ih]

/-- A line item carrying an id appears among the keyed line-item writes. -/
theorem liKV_mem (oid : Nat) (lis : List LineItem) (li : LineItem) (k : Nat)
    (hmem : li ∈ lis) (hid : li.id = some k) :
    (k, lineItemRowOf oid li) ∈ (lis.map (fun li =>
      match li.id with
      | some k => Wr.wli k (lineItemRowOf oid li)
      | none => Wr.wliAuto (lineItemRowOf oid li))).filterMap liKV := by
  rw [List.mem_filterMap]
  refine ⟨Wr.wli k (lineItemRowOf oid li), ?_, rfl⟩
  rw [List.mem_map]
  exact ⟨li, hmem, by rw [hid]⟩

/-- Every 429 attempt with the same parseable `Retry-After` eats the whole
budget, sleeping the header value each time. -/
theorem rwrAux_all429 (outs : Nat → AttemptOutcome) (hd : String) (n : Int)
    (hn : parseIntStr hd = some n) (hall : ∀ j, outs j = .response 429 (some hd)) :
    ∀ (fuel i : Nat) (b : Int) (sl : List Int),
    requestWithRetriesAux outs i fuel b sl = ⟨.exhausted, sl ++ List.replicate fuel n⟩ := by
  intro fuel
  induction fuel with
  | zero => intro i b sl; simp [requestWithRetriesAux]
  | succ fuel ih =>
    intro i b sl
    have e : requestWithRetriesAux outs i (fuel + 1) b sl
        = requestWithRetriesAux outs (i + 1) fuel (b * 2) (sl ++ [n]) := by
      simp [requestWithRetriesAux, hall i, hn]
    rw [e, ih]
    simp [List.replicate_succ, List.append_assoc]

/-! ## Claim theorems -/

/-- C1 (counterexample): the upsert step is NOT idempotent for every fetched
record set.  An order whose line item lacks an `id` (`li.get("id")` returns
`None`) is inserted with a NULL primary key, so SQLite auto-assigns a fresh
rowid on every run: storing the same order twice leaves a second, duplicate
line-item row (here at rowid 2) that a single run does not produce. -/
theorem upsert_not_idempotent_cex :
    (storeOrders [cexOrderNoLiId] emptyStore).line_items 2 = none ∧
    (storeOrders [cexOrderNoLiId] (storeOrders [cexOrderNoLiId] emptyStore)).line_items 2
      = some (lineItemRowOf 1 cexLineItem) ∧
    storeOrders [cexOrderNoLiId] (storeOrders [cexOrderNoLiId] emptyStore)
      ≠ storeOrders [cexOrderNoLiId] emptyStore := by
  have hA : (storeOrders [cexOrderNoLiId] emptyStore).line_items 2 = none := by decide
  have hB : (storeOrders [cexOrderNoLiId] (storeOrders [cexOrderNoLiId] emptyStore)).line_items 2
      = some (lineItemRowOf 1 cexLineItem) := by decide
  refine ⟨hA, hB, fun h => ?_⟩
  have h2 := congrFun (congrArg Store.line_items h) 2
  rw [hA, hB] at h2
  exact Option.noConfusion h2

/-- C1 (amended): upserting the same fetched record set twice leaves the
relational store identical to upserting it once, for products with their
nested variants and for customers unconditionally, and for orders with their
nested line items provided every line item carries an id (an id-less line
item is a NULL-primary-key insert that duplicates on re-run). -/
theorem upsert_idempotent_amended (ps : List Product) (cs : List Customer) (os : List Order)
    (s : Store) :
    storeProducts ps (storeProducts ps s) = storeProducts ps s ∧
    storeCustomers cs (storeCustomers cs s) = storeCustomers cs s ∧
    ((∀ o ∈ os, ∀ li ∈ o.line_items, li.id.isSome) →
      storeOrders os (storeOrders os s) = storeOrders os s) := by
  refine ⟨?_, ?_, ?_⟩
  · exact applyWrites_idem (productWrites ps) s (hasAuto_productWrites ps)
  · exact applyWrites_idem (customerWrites cs) s (hasAuto_customerWrites cs)
  · intro h
    exact applyWrites_idem (orderWrites os) s (hasAuto_orderWrites os h)

/-- C1 (witness): the amended idempotence applied to one concrete product
(with a variant), customer and order (whose line item has an id). -/
theorem upsert_idempotent_amended_witness :
    storeProducts [wProd] (storeProducts [wProd] emptyStore) = storeProducts [wProd] emptyStore ∧
    storeCustomers [cexCust1] (storeCustomers [cexCust1] emptyStore)
      = storeCustomers [cexCust1] emptyStore ∧
    storeOrders [wOrderWithId] (storeOrders [wOrderWithId] emptyStore)
      = storeOrders [wOrderWithId] emptyStore := by
  have h := upsert_idempotent_amended [wProd] [cexCust1] [wOrderWithId] emptyStore
  exact ⟨h.1, h.2.1, h.2.2 (by decide)⟩

/-- C2 (counterexample): the stored watermark CAN decrease.  A pass that
fetches one record updated at t = 100 stores watermark 100; a following
incremental pass whose only fetched record is updated at t = 50 — admissible
under the server-side filter, which is 100 − 60 = 40 — overwrites the
watermark with 50 < 100, because the code sets the watermark to the maximum
`updated_at` of the current fetch unconditionally. -/
theorem watermark_decrease_cex :
    (fetch_and_store_products [p100] initState).products_last_sync = some 100 ∧
    (fetch_and_store_products [p50] (fetch_and_store_products [p100] initState)).products_last_sync
      = some 50 ∧
    inFetchWindow (updated_at_min_param true (some 100)) 50 = true ∧
    (50 : Timestamp) < 100 := by
  exact ⟨by decide, by decide, by decide, by decide⟩

/-- C2 (amended): after a pass the stored watermark equals the maximum
parseable `updated_at` among that pass's fetched records, and is left
unchanged when no fetched record carries one (in particular when zero
records are fetched); consequently the watermark never decreases provided
every pass that fetches records fetches at least one record no older than
the stored watermark — without that proviso it can decrease, since the code
overwrites unconditionally. -/
theorem watermark_update_amended (items : List Product) (st : PipelineState) :
    ((∀ p ∈ items, p.updated_at = none) →
      (fetch_and_store_products items st).products_last_sync = st.products_last_sync) ∧
    (∀ m, computeMax (items.map Product.updated_at) = some m →
      (fetch_and_store_products items st).products_last_sync = some m ∧
      (∃ p ∈ items, p.updated_at = some m) ∧
      (∀ q ∈ items, ∀ t, q.updated_at = some t → t ≤ m)) ∧
    ((∃ p ∈ items, p.updated_at ≠ none) →
      ∃ m, (fetch_and_store_products items st).products_last_sync = some m) ∧
    (∀ w, st.products_last_sync = some w →
      (∃ p ∈ items, ∃ t, p.updated_at = some t ∧ w ≤ t) →
      ∃ m, (fetch_and_store_products items st).products_last_sync = some m ∧ w ≤ m) := by
  have hwm : (fetch_and_store_products items st).products_last_sync
      = newWatermark st.products_last_sync (computeMax (items.map Product.updated_at)) := rfl
  refine ⟨?_, ?_, ?_, ?_⟩
  · intro h
    have hnone : computeMax (items.map Product.updated_at) = none := by
      rw [computeMax_eq_none]
      intro t ht
      rw [List.mem_map] at ht
      rcases ht with ⟨p, hp, hpe⟩
      rw [h p hp] at hpe
      cases hpe
    rw [hwm, hnone]
    rfl
  · intro m hm
    rcases computeMax_eq_some _ m hm with ⟨hmem, hbound⟩
    rw [List.mem_map] at hmem
    rcases hmem with ⟨p, hp, hpe⟩
    refine ⟨by rw [hwm, hm]; rfl, ⟨p, hp, hpe⟩, ?_⟩
    intro q hq t hqt
    exact hbound t (by rw [List.mem_map]; exact ⟨q, hq, hqt⟩)
  · rintro ⟨p, hp, hps⟩
    rcases ho : computeMax (items.map Product.updated_at) with _ | m
    · rw [computeMax_eq_none] at ho
      rcases hs : p.updated_at with _ | t
      · exact absurd hs hps
      · exact absurd (by rw [List.mem_map]; exact ⟨p, hp, hs⟩) (ho t)
    · exact ⟨m, by rw [hwm, ho]; rfl⟩
  · intro w hw
    rintro ⟨p, hp, t, hpt, hwt⟩
    rcases ho : computeMax (items.map Product.updated_at) with _ | m
    · rw [computeMax_eq_none] at ho
      exact absurd (by rw [List.mem_map]; exact ⟨p, hp, hpt⟩) (ho t)
    · rcases computeMax_eq_some _ m ho with ⟨_, hbound⟩
      have htm : t ≤ m := hbound t (by rw [List.mem_map]; exact ⟨p, hp, hpt⟩)
      exact ⟨m, by rw [hwm, ho]; rfl, le_trans hwt htm⟩

/-- C2 (witness): the amended watermark rule applied to a one-record pass
and to an empty pass. -/
theorem watermark_update_amended_witness :
    (fetch_and_store_products [p100] initState).products_last_sync = some 100 ∧
    (∃ p ∈ [p100], p.updated_at = some 100) ∧
    (fetch_and_store_products ([] : List Product) initState).products_last_sync
      = initState.products_last_sync := by
  have h := watermark_update_amended [p100] initState
  have h0 := watermark_update_amended ([] : List Product) initState
  rcases h.2.1 100 (by decide) with ⟨ha, hb, _⟩
  exact ⟨ha, hb, h0.1 (by decide)⟩

/-- C3: pagination completeness.  For every response sequence in which each
page except the last advertises a parsed `Link` header with a usable
`rel="next"` url and the last page does not, `fetch_all_rest` returns
exactly the concatenation of all pages' item arrays, in page order. -/
theorem pagination_completeness {α : Type} :
    ∀ (front : List (PageResp α)) (lastp : PageResp α),
    (∀ p ∈ front, ∃ u, getNextLink p.linkHeader = some (some u)) →
    getNextLink lastp.linkHeader = some none →
    fetch_all_rest (front ++ [lastp])
      = some (((front ++ [lastp]).map PageResp.items).flatten) := by
  intro front
  induction front with
  | nil =>
    intro lastp _ hlast
    simp [fetch_all_rest, hlast]
  | cons p front ih =>
    intro lastp hfront hlast
    rcases hfront p (List.mem_cons_self _ _) with ⟨u, hu⟩
    have hrest := ih lastp (fun q hq => hfront q (List.mem_cons_of_mem _ hq)) hlast
    cases front with
    | nil => simp [fetch_all_rest, hu, hlast]
    | cons q qs =>
      simp only [List.cons_append] at hrest ⊢
      simp [fetch_all_rest, hu, hrest]

/-- C3 (witness): a concrete two-page feed whose first page carries a real
`Link` header and whose second page has none. -/
theorem pagination_completeness_witness :
    fetch_all_rest [wPage1, wPage2] = some [1, 2, 3] := by
  have h1 : ∀ p ∈ [wPage1], ∃ u, getNextLink p.linkHeader = some (some u) := by
    intro p hp
    rw [List.mem_singleton] at hp
    subst hp
    exact ⟨"https://shop.example/products.json?page_info=p2".data, by decide⟩
  have h2 : getNextLink wPage2.linkHeader = some none := by decide
  have h := pagination_completeness [wPage1] wPage2 h1 h2
  rw [show ([wPage1] ++ [wPage2]) = [wPage1, wPage2] from rfl] at h
  rw [h]
  decide

/-- C4: fatal-fetch atomicity and partial-run resumability.  If the products
fetch fails, the whole state is untouched and the error propagates; if the
customers fetch fails after a successful products pass, the invocation
aborts (orders never runs), the customers/orders tables and watermarks are
exactly as before the invocation, and the products pass keeps its advanced
watermark and rows (no rollback). -/
theorem fatal_fetch_atomicity (st : PipelineState) (e : String) (pitems : List Product)
    (fc : Except String (List Customer)) (fo : Except String (List Order)) :
    run_full_sync (.error e) fc fo st = (.error e, st) ∧
    run_full_sync (.ok pitems) (.error e) fo st = (.error e, fetch_and_store_products pitems st) ∧
    (fetch_and_store_products pitems st).customers_last_sync = st.customers_last_sync ∧
    (fetch_and_store_products pitems st).orders_last_sync = st.orders_last_sync ∧
    (fetch_and_store_products pitems st).store.customers = st.store.customers ∧
    (fetch_and_store_products pitems st).store.orders = st.store.orders ∧
    (fetch_and_store_products pitems st).store.line_items = st.store.line_items := by
  refine ⟨rfl, rfl, rfl, rfl, ?_, ?_, ?_⟩
  · exact (storeProducts_untouched pitems st.store).1
  · exact (storeProducts_untouched pitems st.store).2.1
  · exact (storeProducts_untouched pitems st.store).2.2

/-- C5: retry exhaustion is fatal.  If all five attempts in the budget are
retryable failures (transport error, or a non-2xx status the loop absorbs),
`request_with_retries` ends in the `RuntimeError` rather than returning; a
2xx response reached within the budget after retryable failures is
returned as the success of that attempt. -/
theorem retry_exhaustion_fatal (outcomes : Nat → AttemptOutcome) :
    ((∀ i, i < 5 → isRetryable (outcomes i) = true) →
      (request_with_retries outcomes 5).result = .exhausted) ∧
    (∀ i s ra, i < 5 → (∀ j, j < i → isRetryable (outcomes j) = true) →
      outcomes i = .response s ra → 200 ≤ s → s < 300 →
      (request_with_retries outcomes 5).result = .success i s) := by
  constructor
  · intro h
    exact rwrAux_exhausted outcomes 5 0 1 [] (fun j hj => by simpa using h j hj)
  · intro i s ra hi hj hresp h200 h300
    have h := rwrAux_success outcomes i 5 0 1 [] s ra hi
      (fun j hjlt => by simpa using hj j hjlt) (by simpa using hresp) h200 h300
    simpa using h

/-- C5 (witness): five transport errors exhaust the budget fatally; a 200
after one transport error is returned as attempt 1's success. -/
theorem retry_exhaustion_fatal_witness :
    (request_with_retries allTransportErr 5).result = .exhausted ∧
    (request_with_retries okSecondTry 5).result = .success 1 200 := by
  constructor
  · exact (retry_exhaustion_fatal allTransportErr).1 (by decide)
  · exact (retry_exhaustion_fatal okSecondTry).2 1 200 none (by decide) (by decide)
      (by decide) (by decide) (by decide)

/-- C6: lookback correctness.  With a stored watermark `w` an incremental
pass sends `updated_at_min = w − 60` (the instant rendered by
`isoformat_for_api`, which is the identity on epoch seconds); a record
updated at `w − 30` lies inside the fetch window; with no stored watermark,
or with `incremental=False`, no `updated_at_min` filter is sent. -/
theorem lookback_filter_correct (w : Timestamp) (ls : Option Timestamp) :
    updated_at_min_param true (some w) = some (w - 60) ∧
    inFetchWindow (updated_at_min_param true (some w)) (w - 30) = true ∧
    updated_at_min_param true none = none ∧
    updated_at_min_param false ls = none := by
  refine ⟨rfl, ?_, rfl, ?_⟩
  · show decide (w - 60 ≤ w - 30) = true
    rw [decide_eq_true_eq]
    exact sub_le_sub_left (by norm_num : (30 : Int) ≤ 60) w
  · cases ls <;> rfl

/-- C7 (counterexample): a MISSING price field is not stored as null.
`float(o.get("total_price", 0.0))` turns an absent `total_price` into `0.0`,
so the order is committed with `total_price = 0`, not NULL — the record and
its line items are still committed (the line item's malformed `"abc"` price
does become NULL). -/
theorem missing_price_stored_as_zero_cex :
    (fetch_and_store_orders [cexOrderMissingPrice] initState).store.orders 7
      = some (orderRowOf cexOrderMissingPrice) ∧
    (orderRowOf cexOrderMissingPrice).total_price = some 0 ∧
    (((fetch_and_store_orders [cexOrderMissingPrice] initState).store.line_items 70).map
      LineItemRow.price) = some none := by
  exact ⟨by decide, by decide, by decide⟩

/-- C7 (amended): a malformed price (an unparsable string, or an explicit
null) never aborts the pass: it is stored as NULL and the order together
with all its (id-carrying) line items is still committed; a MISSING price
field is instead stored as `0.0` via the `.get(..., 0.0)` default, the
record equally committed.  Line-item prices follow the same rule. -/
theorem price_coercion_amended (o : Order) (st : PipelineState) (str : String) :
    (o.total_price = some (.pstr str) → parseDecimal str = none →
      (orderRowOf o).total_price = none) ∧
    (o.total_price = some .pnull → (orderRowOf o).total_price = none) ∧
    (o.total_price = none → (orderRowOf o).total_price = some 0) ∧
    ((fetch_and_store_orders [o] st).store.orders o.id = some (orderRowOf o)) ∧
    ((∀ li ∈ o.line_items, li.id.isSome) → ∀ li ∈ o.line_items, ∀ k, li.id = some k →
      ((fetch_and_store_orders [o] st).store.line_items k).isSome = true) ∧
    (∀ li ∈ o.line_items, ∀ s2, li.price = some (.pstr s2) → parseDecimal s2 = none →
      (lineItemRowOf o.id li).price = none) ∧
    (∀ li ∈ o.line_items, li.price = none → (lineItemRowOf o.id li).price = some 0) := by
  have hrow : (orderRowOf o).total_price = coercePrice o.total_price := rfl
  refine ⟨?_, ?_, ?_, ?_, ?_, ?_, ?_⟩
  · intro h hp
    rw [hrow, h]
    simp [coercePrice, hp]
  · intro h
    rw [hrow, h]
    rfl
  · intro h
    rw [hrow, h]
    rfl
  · have hdec : (fetch_and_store_orders [o] st).store.orders
        = applyKVs st.store.orders ((orderWrites [o]).filterMap ordKV) := by
      exact applyWrites_orders (orderWrites [o]) st.store
    have hkv : (orderWrites [o]).filterMap ordKV = [(o.id, orderRowOf o)] := by
      simp only [orderWrites, List.flatMap_cons, List.flatMap_nil, List.append_nil,
        List.filterMap_cons, ordKV]
      rw [ordKV_liWrites]
    rw [hdec, hkv]
    simp [applyKVs, upsertT]
  · intro hall li hli k hk
    have hna : hasAuto (orderWrites [o]) = false := by
      refine hasAuto_orderWrites [o] ?_
      intro o2 ho2
      rw [List.mem_singleton] at ho2
      subst ho2
      exact hall
    rcases applyWrites_line_items (orderWrites [o]) st.store hna with ⟨hdec, _⟩
    have hmem : (k, lineItemRowOf o.id li) ∈ (orderWrites [o]).filterMap liKV := by
      simp only [orderWrites, List.flatMap_cons, List.flatMap_nil, List.append_nil,
        List.filterMap_cons, liKV]
      exact liKV_mem o.id o.line_items li k hli hk
    have : (fetch_and_store_orders [o] st).store.line_items
        = applyKVs st.store.line_items ((orderWrites [o]).filterMap liKV) := hdec
    rw [this]
    exact applyKVs_isSome st.store.line_items _ k (lineItemRowOf o.id li) hmem
  · intro li _ s2 hp hnone
    have : (lineItemRowOf o.id li).price = coercePrice li.price := rfl
    rw [this, hp]
    simp [coercePrice, hnone]
  · intro li _ hp
    have : (lineItemRowOf o.id li).price = coercePrice li.price := rfl
    rw [this, hp]
    rfl

/-- C7 (witness): the amended coercion rule applied to a concrete order with
`total_price = "abc"` and one id-carrying line item. -/
theorem price_coercion_amended_witness :
    (orderRowOf wOrderAbc).total_price = none ∧
    (fetch_and_store_orders [wOrderAbc] initState).store.orders 8 = some (orderRowOf wOrderAbc) ∧
    ((fetch_and_store_orders [wOrderAbc] initState).store.line_items 81).isSome = true := by
  have h := price_coercion_amended wOrderAbc initState "abc"
  refine ⟨h.1 rfl (by decide), h.2.2.2.1, ?_⟩
  exact h.2.2.2.2.1 (by decide) wLineItem81 (by decide) 81 rfl

/-- One loop step past a 429 carrying a parseable `Retry-After`: sleep
exactly the header value, double the backoff, consume one attempt. -/
theorem rwrAux_step_429 (outs : Nat → AttemptOutcome) (i fuel : Nat) (b : Int) (sl : List Int)
    (hd : String) (n : Int) (hn : parseIntStr hd = some n)
    (h0 : outs i = .response 429 (some hd)) :
    requestWithRetriesAux outs i (fuel + 1) b sl
      = requestWithRetriesAux outs (i + 1) fuel (b * 2) (sl ++ [n]) := by
  simp [requestWithRetriesAux, h0, hn]

/-- One loop step past a 429 without a `Retry-After` header: sleep the
current backoff value. -/
theorem rwrAux_step_429_nohdr (outs : Nat → AttemptOutcome) (i fuel : Nat) (b : Int)
    (sl : List Int) (h0 : outs i = .response 429 none) :
    requestWithRetriesAux outs i (fuel + 1) b sl
      = requestWithRetriesAux outs (i + 1) fuel (b * 2) (sl ++ [b]) := by
  simp [requestWithRetriesAux, h0]

/-- One loop step past a transport error: sleep the current backoff value,
double it. -/
theorem rwrAux_step_transport (outs : Nat → AttemptOutcome) (i fuel : Nat) (b : Int)
    (sl : List Int) (h0 : outs i = .transportErr) :
    requestWithRetriesAux outs i (fuel + 1) b sl
      = requestWithRetriesAux outs (i + 1) fuel (b * 2) (sl ++ [b]) := by
  simp [requestWithRetriesAux, h0]

/-- C8: 429 handling.  On a 429 the client sleeps exactly the parsed
`Retry-After` value (first sleep of the run equals the header value); with
the header absent it sleeps the current backoff (initially 1); the 429
consumes an attempt from the budget — five 429s exhaust it — and the
backoff doubles after every retry regardless of cause (after a 429 with
`Retry-After` n, a following transport error sleeps 2 = doubled initial
backoff). -/
theorem rate_limit_429_handling (hd : String) (n : Int) (outs : Nat → AttemptOutcome)
    (hn : parseIntStr hd = some n) :
    (outs 0 = .response 429 (some hd) →
      (request_with_retries outs 5).sleeps.head? = some n) ∧
    (outs 0 = .response 429 none → (request_with_retries outs 5).sleeps.head? = some 1) ∧
    (outs 0 = .response 429 (some hd) → outs 1 = .transportErr →
      (request_with_retries outs 5).sleeps.take 2 = [n, 2]) ∧
    ((∀ i, outs i = .response 429 (some hd)) →
      request_with_retries outs 5 = ⟨.exhausted, [n, n, n, n, n]⟩) := by
  refine ⟨?_, ?_, ?_, ?_⟩
  · intro h0
    have estart : request_with_retries outs 5 = requestWithRetriesAux outs 0 (4 + 1) 1 [] := rfl
    rw [estart, rwrAux_step_429 outs 0 4 1 [] hd n hn h0]
    show (requestWithRetriesAux outs 1 4 2 ([] ++ [n])).sleeps.head? = some n
    rcases rwrAux_sleeps outs 4 1 2 ([] ++ [n]) with ⟨t, ht⟩
    rw [ht]
    rfl
  · intro h0
    have estart : request_with_retries outs 5 = requestWithRetriesAux outs 0 (4 + 1) 1 [] := rfl
    rw [estart, rwrAux_step_429_nohdr outs 0 4 1 [] h0]
    show (requestWithRetriesAux outs 1 4 2 ([] ++ [1])).sleeps.head? = some 1
    rcases rwrAux_sleeps outs 4 1 2 ([] ++ [1]) with ⟨t, ht⟩
    rw [ht]
    rfl
  · intro h0 h1
    have estart : request_with_retries outs 5 = requestWithRetriesAux outs 0 (4 + 1) 1 [] := rfl
    rw [estart, rwrAux_step_429 outs 0 4 1 [] hd n hn h0]
    show (requestWithRetriesAux outs 1 (3 + 1) 2 ([] ++ [n])).sleeps.take 2 = [n, 2]
    rw [rwrAux_step_transport outs 1 3 2 ([] ++ [n]) h1]
    show (requestWithRetriesAux outs 2 3 4 (([] ++ [n]) ++ [2])).sleeps.take 2 = [n, 2]
    rcases rwrAux_sleeps outs 3 2 4 (([] ++ [n]) ++ [2]) with ⟨t, ht⟩
    rw [ht]
    rfl
  · intro hall
    have e := rwrAux_all429 outs hd n hn hall 5 0 1 []
    rw [show request_with_retries outs 5 = requestWithRetriesAux outs 0 5 1 [] from rfl, e]
    rfl

/-- C8 (witness): `Retry-After: 3` makes the first sleep exactly 3 seconds
(hence ≥ 3), and five such 429s exhaust the five-attempt budget sleeping 3
each time. -/
theorem rate_limit_429_handling_witness :
    (request_with_retries rateLimited3 5).sleeps.head? = some 3 ∧
    request_with_retries rateLimited3 5 = ⟨.exhausted, [3, 3, 3, 3, 3]⟩ := by
  have h := rate_limit_429_handling "3" 3 rateLimited3 (by decide)
  exact ⟨h.1 rfl, h.2.2.2 (fun i => rfl)⟩

/-- C9 (counterexample): a failing row write does NOT leave the pass
continuing with the remaining records.  With two fetched customers and a
write fault on the first, the pass raises (`none`) before `conn.commit()`,
so nothing — in particular not the unaffected second customer — reaches the
durable store. -/
theorem storage_fault_aborts_pass_cex :
    fetch_and_store_customers_faulty cexFailOnCust1 [cexCust1, cexCust2] initState = none ∧
    initState.store.customers 2 = none := by
  exact ⟨rfl, rfl⟩

/-- C9 (amended): a single-row write failure aborts the whole pass: the
function raises, no row of the pass is committed (the transaction is never
committed) and the watermark is not advanced; only a pass with no failing
write commits, and then it commits exactly the normal pass result.  The same
holds for the orders pass. -/
theorem storage_fault_aborts_amended (fails : Wr → Bool) (citems : List Customer)
    (oitems : List Order) (st : PipelineState) :
    ((customerWrites citems).any fails = true →
      fetch_and_store_customers_faulty fails citems st = none) ∧
    ((customerWrites citems).any fails = false →
      fetch_and_store_customers_faulty fails citems st
        = some (fetch_and_store_customers citems st)) ∧
    ((orderWrites oitems).any fails = true →
      fetch_and_store_orders_faulty fails oitems st = none) ∧
    ((orderWrites oitems).any fails = false →
      fetch_and_store_orders_faulty fails oitems st = some (fetch_and_store_orders oitems st)) := by
  refine ⟨?_, ?_, ?_, ?_⟩
  · intro hf
    rw [fetch_and_store_customers_faulty,
      (execWrites_spec fails (customerWrites citems) st.store).1 hf]
    rfl
  · intro hf
    rw [fetch_and_store_customers_faulty,
      (execWrites_spec fails (customerWrites citems) st.store).2 hf]
    rfl
  · intro hf
    rw [fetch_and_store_orders_faulty,
      (execWrites_spec fails (orderWrites oitems) st.store).1 hf]
    rfl
  · intro hf
    rw [fetch_and_store_orders_faulty,
      (execWrites_spec fails (orderWrites oitems) st.store).2 hf]
    rfl

/-- C9 (witness): a fault on customer row 1 aborts a pass containing it, and
a pass whose rows all write cleanly commits the normal result. -/
theorem storage_fault_aborts_amended_witness :
    fetch_and_store_customers_faulty cexFailOnCust1 [cexCust1] initState = none ∧
    fetch_and_store_customers_faulty cexFailOnCust1 [cexCust2] initState
      = some (fetch_and_store_customers [cexCust2] initState) := by
  have h1 := storage_fault_aborts_amended cexFailOnCust1 [cexCust1] [] initState
  have h2 := storage_fault_aborts_amended cexFailOnCust1 [cexCust2] [] initState
  exact ⟨h1.1 (by decide), h2.2.1 (by decide)⟩

/-- C10: a 429 whose `Retry-After` is a non-numeric HTTP-date makes
`int(...)` raise an uncaught `ValueError` on the spot: the run crashes at
attempt 0 with no sleep performed, after one attempt of the five-attempt
budget. -/
theorem retry_after_nonnumeric_crash :
    request_with_retries nonNumericRA 5 = ⟨.retryAfterCrash 0, []⟩ ∧
    (request_with_retries nonNumericRA 5).sleeps = [] ∧
    0 + 1 < 5 := by
  exact ⟨by decide, by decide, by decide⟩
